import Mathlib

/-!
Verification of the BOOTP/DHCP frame/option codec (`src/parser.rs`,
`src/writer.rs`, data model in `src/common.rs`).

Shallow embedding conventions:
* Machine bytes (`u8`) are `Nat`s; where the Rust code truncates
  (`as u8`) we write `% 256` explicitly.  `u16`/`u32`/`u64` values are
  `Nat`s, with the relevant bound appearing as a hypothesis where it
  matters.
* Byte buffers (`&[u8]` / `Vec<u8>`) are `List Nat`.
* The fallible Rust functions return `Result<T, Error>` where `Error`
  carries a message string; the embedding returns `Except PErr T` where
  `PErr` names each distinct error site of the source (guard failure
  "Frame too short", `read_exact` hitting end of input, and the
  frame-level wrapping "Failed to parse option: ...").
* The `while` loop over the option stream is embedded with an explicit
  fuel parameter (`PErr.fuelOut` marks exhaustion); `frameParse` passes
  `buf.length` fuel and `frameParse_safe` proves `fuelOut` is never
  returned, which is the termination argument for the loop.  The
  source's `opts.last().unwrap()` is embedded by an explicit
  `List.getLast?` match whose `none` branch returns `PErr.internalPanic`;
  `frameParse_safe` proves that branch unreachable, which is the
  no-panic argument.
-/

namespace Dhcp

/-- Error type of the codec (`common.rs`, `Error { msg: String }`), with one
constructor per distinct error site instead of the message string. -/
inductive PErr where
  /-- `Error::new("Frame too short")` — explicit length guard. -/
  | tooShort : PErr
  /-- `read_exact` failing with `UnexpectedEof` ("failed to fill whole buffer"). -/
  | fillFail : PErr
  /-- `format!("Failed to parse option: {}", e)` — frame-level wrapper. -/
  | optFail : PErr → PErr
  /-- Marks the embedding of `opts.last().unwrap()` being reached with an
  empty list (a panic in Rust); proved unreachable. -/
  | internalPanic : PErr
  /-- Marks fuel exhaustion of the embedded `while` loop (no Rust
  counterpart); proved unreachable. -/
  | fuelOut : PErr
deriving Repr, DecidableEq

/-- The errors the source can actually surface: malformed-input conditions
(`Error` values built from a message). -/
def PErr.malformed : PErr → Prop
  | .tooShort => True
  | .fillFail => True
  | .optFail e => e.malformed
  | .internalPanic => False
  | .fuelOut => False

def PErr.decMalformed : (e : PErr) → Decidable (PErr.malformed e)
  | .tooShort => .isTrue trivial
  | .fillFail => .isTrue trivial
  | .optFail e => PErr.decMalformed e
  | .internalPanic => .isFalse (fun h => h)
  | .fuelOut => .isFalse (fun h => h)

instance : DecidablePred PErr.malformed := PErr.decMalformed

def exceptDecEq {ε α : Type} [DecidableEq ε] [DecidableEq α] :
    DecidableEq (Except ε α)
  | .error x, .error y =>
    if h : x = y then .isTrue (h ▸ rfl)
    else .isFalse (fun hc => h (Except.error.inj hc))
  | .error _, .ok _ => .isFalse (fun hc => Except.noConfusion hc)
  | .ok _, .error _ => .isFalse (fun hc => Except.noConfusion hc)
  | .ok x, .ok y =>
    if h : x = y then .isTrue (h ▸ rfl)
    else .isFalse (fun hc => h (Except.ok.inj hc))

instance {ε α : Type} [DecidableEq ε] [DecidableEq α] :
    DecidableEq (Except ε α) := exceptDecEq

/-- `common.rs`: `Option { tag: u8, len: u8, data: Vec<u8> }`.  Named
`DhcpOption` because `Option` is taken by the core library. -/
structure DhcpOption where
  tag : Nat
  len : Nat
  data : List Nat
deriving Repr, DecidableEq

/-- `common.rs`: `Frame` — the fixed-width header fields plus the option list. -/
structure Frame where
  op : Nat
  htype : Nat
  hlen : Nat
  hops : Nat
  xid : Nat
  secs : Nat
  flags : Nat
  ciaddr : List Nat
  yiaddr : List Nat
  siaddr : List Nat
  giaddr : List Nat
  chaddr : List Nat
  sname : List Nat
  file : List Nat
  options : List DhcpOption
deriving Repr, DecidableEq

/-- `parser.rs`, `Option::parse`: guard `buf.len() < 2`, read `tag = buf[0]`,
`len = buf[1]`, then `read_exact` of `len` bytes starting at offset 2 (fails
with `UnexpectedEof` when fewer than `len` bytes remain). -/
def optionParse (buf : List Nat) : Except PErr DhcpOption :=
  if buf.length < 2 then .error .tooShort
  else
    let tag := buf.getD 0 0
    let len := buf.getD 1 0
    if buf.length < 2 + len then .error .fillFail
    else .ok { tag := tag, len := len, data := (buf.drop 2).take len }

/-- `parser.rs`, the option `while` loop of `Frame::parse` (lines 101–122).
Faithful points: the loop condition is `cur.position() < buf.len()`; the body
calls `Option::parse(cur.get_ref())`, i.e. on the WHOLE buffer starting at
index 0, not at the cursor; a decoded tag 255 breaks without appending;
otherwise the option is pushed and the cursor is set to
`pos + 2 + opts.last().unwrap().data.len()`.  The `unwrap` is embedded by the
`getLast?` match; the fuel argument embeds the loop itself. -/
def optLoop (buf : List Nat) : Nat → Nat → List DhcpOption → Except PErr (List DhcpOption)
  | 0, pos, acc => if pos < buf.length then .error .fuelOut else .ok acc
  | fuel + 1, pos, acc =>
    if pos < buf.length then
      match optionParse buf with
      | .error e => .error (.optFail e)
      | .ok opt =>
        if opt.tag = 255 then .ok acc
        else
          let acc2 := acc ++ [opt]
          match acc2.getLast? with
          | none => .error .internalPanic
          | some opt2 => optLoop buf fuel (pos + 2 + opt2.data.length) acc2
    else .ok acc

/-- `parser.rs`, `Frame::parse`: guard `buf.len() < 44` ("Frame too short"),
then sequential cursor reads of the fixed header (the reads of `sname` at
offset 44 and `file` at offset 108 are the first to hit `UnexpectedEof`, for
buffers shorter than 108 resp. 236 bytes), then the option loop starting at
cursor position 236 — the magic cookie is never skipped by the source. -/
def frameParse (buf : List Nat) : Except PErr Frame :=
  if buf.length < 44 then .error .tooShort
  else if buf.length < 108 then .error .fillFail
  else if buf.length < 236 then .error .fillFail
  else
    match optLoop buf buf.length 236 [] with
    | .error e => .error e
    | .ok opts =>
      .ok {
        op := buf.getD 0 0
        htype := buf.getD 1 0
        hlen := buf.getD 2 0
        hops := buf.getD 3 0
        xid := buf.getD 4 0 * 16777216 + buf.getD 5 0 * 65536 +
               buf.getD 6 0 * 256 + buf.getD 7 0
        secs := buf.getD 8 0 * 256 + buf.getD 9 0
        flags := buf.getD 10 0 * 256 + buf.getD 11 0
        ciaddr := (buf.drop 12).take 4
        yiaddr := (buf.drop 16).take 4
        siaddr := (buf.drop 20).take 4
        giaddr := (buf.drop 24).take 4
        chaddr := (buf.drop 28).take 16
        sname := (buf.drop 44).take 64
        file := (buf.drop 108).take 128
        options := opts }

/-- One nibble of `{:02x}` formatting: digits `0-9` then lowercase `a-f`. -/
def hexDigit (n : Nat) : Char :=
  if n < 10 then Char.ofNat (48 + n) else Char.ofNat (87 + n)

/-- `{:02x}` on a byte: two lowercase hex digits. -/
def hexByte (n : Nat) : String :=
  String.mk [hexDigit (n / 16), hexDigit (n % 16)]

/-- `parser.rs`, `Frame::client_mac_string`: formats `chaddr[0]` through
`chaddr[5]` with `{:02x}`, colon-separated.  The Rust indexing panics when
`chaddr` has fewer than 6 bytes; the embedding uses `getD` and the theorems
assume `6 ≤ chaddr.length`. -/
def clientMacString (f : Frame) : String :=
  hexByte (f.chaddr.getD 0 0) ++ ":" ++ hexByte (f.chaddr.getD 1 0) ++ ":" ++
  hexByte (f.chaddr.getD 2 0) ++ ":" ++ hexByte (f.chaddr.getD 3 0) ++ ":" ++
  hexByte (f.chaddr.getD 4 0) ++ ":" ++ hexByte (f.chaddr.getD 5 0)

/-- `byteorder` `write_u16::<BigEndian>`: most significant byte first. -/
def u16BE (n : Nat) : List Nat := [n / 256 % 256, n % 256]

/-- `byteorder` `write_u32::<BigEndian>`. -/
def u32BE (n : Nat) : List Nat :=
  [n / 16777216 % 256, n / 65536 % 256, n / 256 % 256, n % 256]

/-- `byteorder` `write_u64::<BigEndian>`. -/
def u64BE (n : Nat) : List Nat :=
  [n / 72057594037927936 % 256, n / 281474976710656 % 256,
   n / 1099511627776 % 256, n / 4294967296 % 256,
   n / 16777216 % 256, n / 65536 % 256, n / 256 % 256, n % 256]

/-- Big-endian value of a byte list (used to state "is the big-endian
representation of v" without restating the encoders). -/
def fromBE (bs : List Nat) : Nat := bs.foldl (fun a b => a * 256 + b) 0

/-- `writer.rs`, `Option::new`: tag as given, `len = 0`, empty data. -/
def optionNew (tag : Nat) : DhcpOption := { tag := tag, len := 0, data := [] }

/-- `writer.rs`, `Option::set_data`: `len = data.len() as u8` (the cast
truncates modulo 256), `data` stored as given. -/
def setData (o : DhcpOption) (d : List Nat) : DhcpOption :=
  { o with len := d.length % 256, data := d }

/-- `writer.rs`, `Option::set_data_str`: the argument is modelled by the
UTF-8 bytes of the Rust `&str`; `str::len()` is exactly the length of that
byte list and `into_bytes` yields the bytes themselves. -/
def setDataStr (o : DhcpOption) (s : List Nat) : DhcpOption :=
  { o with len := s.length % 256, data := s }

/-- `writer.rs`, `Option::set_data_u8`: `len = 1`, `data = vec![v]`. -/
def setDataU8 (o : DhcpOption) (v : Nat) : DhcpOption :=
  { o with len := 1, data := [v % 256] }

/-- `writer.rs`, `Option::set_data_u16` (writing into a fresh `Vec` cannot
fail, so the `Result` is always `Ok`): `len = 2`, big-endian data. -/
def setDataU16 (o : DhcpOption) (v : Nat) : DhcpOption :=
  { o with len := 2, data := u16BE v }

/-- `writer.rs`, `Option::set_data_u32`. -/
def setDataU32 (o : DhcpOption) (v : Nat) : DhcpOption :=
  { o with len := 4, data := u32BE v }

/-- `writer.rs`, `Option::set_data_u64`. -/
def setDataU64 (o : DhcpOption) (v : Nat) : DhcpOption :=
  { o with len := 8, data := u64BE v }

/-- `writer.rs`, `Option::to_bytes`: push `tag`, push `len` (the stored field,
not `data.len()`), extend with `data`. -/
def optionToBytes (o : DhcpOption) : List Nat := o.tag :: o.len :: o.data

/-- `writer.rs`, `Frame::new`: Ethernet defaults and zero-filled fixed-width
buffers. -/
def frameNew (op xid : Nat) : Frame :=
  { op := op, htype := 1, hlen := 6, hops := 0, xid := xid, secs := 0,
    flags := 0,
    ciaddr := List.replicate 4 0, yiaddr := List.replicate 4 0,
    siaddr := List.replicate 4 0, giaddr := List.replicate 4 0,
    chaddr := List.replicate 16 0, sname := List.replicate 64 0,
    file := List.replicate 128 0, options := [] }

/-- `writer.rs`, `Frame::add_option`: append, preserving order. -/
def addOption (f : Frame) (o : DhcpOption) : Frame :=
  { f with options := f.options ++ [o] }

/-- `writer.rs`, `Frame::to_bytes`: the sequence of `push`/`extend` calls
(writing into a `Vec` cannot fail, so the Rust `Result` is always `Ok`):
scalar bytes, big-endian `xid`/`secs`/`flags`, the four addresses, `chaddr`,
`sname`, `file`, the magic cookie, then each option's encoding in order. -/
def frameToBytes (f : Frame) : List Nat :=
  [f.op, f.htype, f.hlen, f.hops] ++
  u32BE f.xid ++ u16BE f.secs ++ u16BE f.flags ++
  f.ciaddr ++ f.yiaddr ++ f.siaddr ++ f.giaddr ++ f.chaddr ++
  f.sname ++ f.file ++
  [99, 130, 83, 99] ++
  (f.options.map optionToBytes).flatten

/-- The Option data-model invariant of the spec:
`length == data.len()` and `data.len() <= 255`. -/
def optInvariant (o : DhcpOption) : Prop :=
  o.len = o.data.length ∧ o.data.length ≤ 255

/-- A valid option TLV stream per the spec's data-model invariant: a sequence
of `tag, length, data` records, terminated either by an End option (tag 255,
a lone sentinel byte) or by buffer exhaustion. -/
inductive ValidOptStream : List Nat → Prop where
  | nil : ValidOptStream []
  | ends (rest : List Nat) : ValidOptStream (255 :: rest)
  | cons (t l : Nat) (data rest : List Nat) (hlen : data.length = l)
      (hl : l ≤ 255) (ht : t ≠ 255) (h : ValidOptStream rest) :
      ValidOptStream (t :: l :: (data ++ rest))

/-- A well-formed encoded frame buffer per the spec's data model: a byte
buffer holding the 236-byte fixed header, either alone or followed by the
4-byte magic cookie and a valid option stream. -/
def wellFormedBuf (buf : List Nat) : Prop :=
  (∀ b ∈ buf, b < 256) ∧ 236 ≤ buf.length ∧
  (buf.length = 236 ∨
    ((buf.drop 236).take 4 = [99, 130, 83, 99] ∧ ValidOptStream (buf.drop 240)))

/-- A concrete 236-byte fixed header: `op = 1`, `htype = 1`, `hlen = 6`,
`hops = 0`, every remaining byte 0. -/
def exHeader : List Nat := [1, 1, 6, 0] ++ List.replicate 232 0

/-- The DHCP magic cookie bytes `0x63 0x82 0x53 0x63`. -/
def magicCookie : List Nat := [99, 130, 83, 99]

/-- The option the source's option loop actually decodes on `exHeader`-headed
buffers: `Option::parse(cur.get_ref())` reads the whole buffer from index 0,
so `tag` = byte 0 = `op` = 1, `len` = byte 1 = `htype` = 1, and `data` =
`[hlen]` = `[6]`. -/
def headerEchoOpt : DhcpOption := { tag := 1, len := 1, data := [6] }

/-- Header, cookie, then an option stream holding a DHCP Message Type option
(tag 53, data `[1]`) followed by End (255); 244 bytes. -/
def bufStreamOne : List Nat := exHeader ++ magicCookie ++ [53, 1, 1, 255]

/-- Header, cookie, then an option stream with the End sentinel first and a
further encoded option `[1, 1, 6]` after it; 244 bytes. -/
def bufEndFirst : List Nat := exHeader ++ magicCookie ++ [255] ++ [1, 1, 6]

/-- A 240-byte well-formed buffer (header plus cookie, empty option stream)
whose `htype` byte is 255. -/
def bufHtype255 : List Nat := [1, 255, 6, 0] ++ List.replicate 232 0 ++ magicCookie

/-- What `Frame::parse` returns on `bufStreamOne` and on `bufEndFirst`: the
header fields plus three copies of the junk option decoded from index 0. -/
def frameEcho3 : Frame :=
  { frameNew 1 0 with options := [headerEchoOpt, headerEchoOpt, headerEchoOpt] }

/-- What `Frame::parse` returns on the 240-byte encoding of `Frame::new(1, 0)`:
the same fields but two junk options decoded from index 0. -/
def frameEcho2 : Frame :=
  { frameNew 1 0 with options := [headerEchoOpt, headerEchoOpt] }

/-- A frame whose `chaddr` starts with the MAC `52:54:01:12:34:56`. -/
def frameMacEx : Frame :=
  { frameNew 1 0 with
    chaddr := [82, 84, 1, 18, 52, 86, 0, 0, 0, 0, 0, 0, 0, 0, 0, 0] }

lemma optionParse_error_cases (buf : List Nat) (e : PErr)
    (h : optionParse buf = .error e) : e = .tooShort ∨ e = .fillFail := by
  simp only [optionParse] at h
  split at h
  · exact Or.inl (by simpa using h.symm)
  · split at h
    · exact Or.inr (by simpa using h.symm)
    · cases h

lemma optionParse_ok_iff (buf : List Nat) (o : DhcpOption) :
    optionParse buf = .ok o ↔
      2 ≤ buf.length ∧ 2 + buf.getD 1 0 ≤ buf.length ∧
      o = { tag := buf.getD 0 0
            len := buf.getD 1 0
            data := (buf.drop 2).take (buf.getD 1 0) } := by
  simp only [optionParse]
  constructor
  · intro h
    split at h
    · cases h
    · split at h
      · cases h
      · refine ⟨by omega, by omega, by simpa using h.symm⟩
  · rintro ⟨h1, h2, rfl⟩
    rw [if_neg (by omega), if_neg (by omega)]

/-- C5: `Option::parse` fails with a malformed-input error on every buffer of
fewer than 2 bytes, and on every buffer shorter than `2 + length-byte`;
otherwise it succeeds with `tag` = byte 0, `len` = byte 1, and `data` = the
`len` bytes following them. -/
theorem optionParse_cases (buf : List Nat) :
    (buf.length < 2 → optionParse buf = .error .tooShort) ∧
    (2 ≤ buf.length → buf.length < 2 + buf.getD 1 0 →
      optionParse buf = .error .fillFail) ∧
    (2 ≤ buf.length → 2 + buf.getD 1 0 ≤ buf.length →
      optionParse buf = .ok { tag := buf.getD 0 0
                              len := buf.getD 1 0
                              data := (buf.take (2 + buf.getD 1 0)).drop 2 }) := by
  refine ⟨fun h => ?_, fun h1 h2 => ?_, fun h1 h2 => ?_⟩
  · simp only [optionParse]
    rw [if_pos h]
  · simp only [optionParse]
    rw [if_neg (by omega), if_pos (by omega)]
  · rw [optionParse_ok_iff]
    refine ⟨h1, h2, ?_⟩
    have e2 : 2 + buf.getD 1 0 - 2 = buf.getD 1 0 := by omega
    rw [List.drop_take, e2]

/-- C5 witness: concrete instances of all three cases — the empty buffer, a
truncated option (declared length 9 with no data), and the spec's message
type vector `[0x35, 0x01, 0x01]`. -/
theorem optionParse_cases_witness :
    optionParse [] = .error .tooShort ∧
    optionParse [53, 9] = .error .fillFail ∧
    optionParse [53, 1, 1] = .ok { tag := 53, len := 1, data := [1] } := by
  refine ⟨(optionParse_cases []).1 (by decide),
          (optionParse_cases [53, 9]).2.1 (by decide) (by decide), ?_⟩
  have h := (optionParse_cases [53, 1, 1]).2.2 (by decide) (by decide)
  rw [h]
  decide

/-- C10: the result of `Option::parse` depends only on the prefix it reads:
appending arbitrary trailing bytes to a buffer it accepts yields the same
`tag`, `len` and `data`. -/
theorem optionParse_extend (buf rest : List Nat) (o : DhcpOption)
    (h : optionParse buf = .ok o) : optionParse (buf ++ rest) = .ok o := by
  rw [optionParse_ok_iff] at h
  obtain ⟨h1, h2, rfl⟩ := h
  rw [optionParse_ok_iff]
  have e0 : (buf ++ rest).getD 0 0 = buf.getD 0 0 :=
    List.getD_append _ _ _ _ (by omega)
  have e1 : (buf ++ rest).getD 1 0 = buf.getD 1 0 :=
    List.getD_append _ _ _ _ (by omega)
  refine ⟨by simp only [List.length_append]; omega,
          by rw [e1]; simp only [List.length_append]; omega, ?_⟩
  rw [e0, e1, List.drop_append_of_le_length (by omega),
      List.take_append_of_le_length (by simp only [List.length_drop]; omega)]

/-- C10 witness: the message-type option followed by junk trailing bytes. -/
theorem optionParse_extend_witness :
    optionParse ([53, 1, 1] ++ [9, 9]) = .ok { tag := 53, len := 1, data := [1] } :=
  optionParse_extend [53, 1, 1] [9, 9] _ (by decide)

/-- C8 counterexample: `set_data` with a 256-byte vector truncates the stored
length (`data.len() as u8` = 0) while keeping all 256 data bytes, so neither
`len == data.len()` nor `data.len() <= 255` holds afterwards. -/
theorem setData_truncates_len :
    ¬ optInvariant (setData (optionNew 5) (List.replicate 256 0)) := by
  intro h
  have h2 := h.2
  rw [show (setData (optionNew 5) (List.replicate 256 0)).data.length = 256 by
        rw [show (setData (optionNew 5) (List.replicate 256 0)).data =
              List.replicate 256 0 from rfl]
        exact List.length_replicate 256 0] at h2
  omega

/-- C8 (amended): the invariant `len == data.len() && data.len() <= 255` holds
after `Option::new`, after every successful `Option::parse` of a byte buffer,
and after every integer mutator for every representable value — whose data is
moreover exactly the big-endian representation (right length, bytes below
256, big-endian value equal to the input) — and after `set_data` /
`set_data_str` whenever the input is at most 255 bytes. -/
theorem optionInvariant_holds :
    (∀ t, optInvariant (optionNew t)) ∧
    (∀ (buf : List Nat) (o : DhcpOption), (∀ b ∈ buf, b < 256) →
      optionParse buf = .ok o → optInvariant o) ∧
    (∀ o d, d.length ≤ 255 → optInvariant (setData o d)) ∧
    (∀ o s, s.length ≤ 255 → optInvariant (setDataStr o s)) ∧
    (∀ o v, v < 256 →
      optInvariant (setDataU8 o v) ∧ (setDataU8 o v).data = [v]) ∧
    (∀ o v, v < 65536 →
      optInvariant (setDataU16 o v) ∧ (setDataU16 o v).data.length = 2 ∧
      fromBE (setDataU16 o v).data = v ∧ ∀ b ∈ (setDataU16 o v).data, b < 256) ∧
    (∀ o v, v < 4294967296 →
      optInvariant (setDataU32 o v) ∧ (setDataU32 o v).data.length = 4 ∧
      fromBE (setDataU32 o v).data = v ∧ ∀ b ∈ (setDataU32 o v).data, b < 256) ∧
    (∀ o v, v < 18446744073709551616 →
      optInvariant (setDataU64 o v) ∧ (setDataU64 o v).data.length = 8 ∧
      fromBE (setDataU64 o v).data = v ∧ ∀ b ∈ (setDataU64 o v).data, b < 256) := by
  refine ⟨fun t => ⟨rfl, by simp [optionNew]⟩, ?_, ?_, ?_, ?_, ?_, ?_, ?_⟩
  · intro buf o hb h
    rw [optionParse_ok_iff] at h
    obtain ⟨h1, h2, rfl⟩ := h
    have hmem : buf.getD 1 0 ∈ buf := by
      rw [List.getD_eq_getElem?_getD, List.getElem?_eq_getElem (by omega)]
      exact List.getElem_mem _
    have hlt := hb _ hmem
    constructor
    · simp only [List.length_take, List.length_drop]
      omega
    · simp only [List.length_take, List.length_drop]
      omega
  · intro o d hd
    refine ⟨?_, hd⟩
    simp only [setData]
    omega
  · intro o s hs
    refine ⟨?_, hs⟩
    simp only [setDataStr]
    omega
  · intro o v hv
    exact ⟨⟨rfl, by simp [setDataU8]⟩, by simp [setDataU8, Nat.mod_eq_of_lt hv]⟩
  · intro o v hv
    refine ⟨⟨rfl, by simp [setDataU16, u16BE]⟩, rfl, ?_, ?_⟩
    · simp [setDataU16, fromBE, u16BE, List.foldl]
      omega
    · simp [setDataU16, u16BE]
      omega
  · intro o v hv
    refine ⟨⟨rfl, by simp [setDataU32, u32BE]⟩, rfl, ?_, ?_⟩
    · simp [setDataU32, fromBE, u32BE, List.foldl]
      omega
    · simp [setDataU32, u32BE]
      omega
  · intro o v hv
    refine ⟨⟨rfl, by simp [setDataU64, u64BE]⟩, rfl, ?_, ?_⟩
    · simp [setDataU64, fromBE, u64BE, List.foldl]
      omega
    · simp [setDataU64, u64BE]
      omega

/-- C8 witness: the amended invariant at concrete calls — `set_data` with a
3-byte vector and `set_data_u16` with 5000. -/
theorem optionInvariant_holds_witness :
    optInvariant (setData (optionNew 1) [7, 8, 9]) ∧
    optInvariant (setDataU16 (optionNew 2) 5000) :=
  ⟨optionInvariant_holds.2.2.1 (optionNew 1) [7, 8, 9] (by decide),
   (optionInvariant_holds.2.2.2.2.2.1 (optionNew 2) 5000 (by decide)).1⟩

set_option maxRecDepth 40000

/-- C1 (code bug): the option loop of `Frame::parse` neither advances past the
magic cookie nor decodes at the cursor — it calls `Option::parse` on the whole
buffer from index 0 each iteration.  On `bufStreamOne`, whose option stream at
offset 240 is `[53, 1, 1, 255]`, parsing succeeds with three copies of the
junk option echoed from the header bytes, and the stream's actual option
(tag 53) never appears. -/
theorem frameParse_reads_buffer_start :
    frameParse bufStreamOne = .ok frameEcho3 ∧
    bufStreamOne.drop 240 = [53, 1, 1, 255] ∧
    DhcpOption.mk 53 1 [1] ∉ frameEcho3.options := by
  refine ⟨by decide, by decide, by decide⟩

/-- C2 (code bug): the round-trip fails already for `Frame::new(1, 0)` with an
empty option list: decoding its 240-byte encoding yields two junk options
echoed from the header bytes instead of the empty list (the fixed fields do
survive the round-trip). -/
theorem frameRoundtrip_fails :
    frameParse (frameToBytes (frameNew 1 0)) = .ok frameEcho2 ∧
    frameEcho2.options ≠ (frameNew 1 0).options ∧
    frameEcho2.op = (frameNew 1 0).op ∧
    frameEcho2.xid = (frameNew 1 0).xid := by
  refine ⟨by decide, by decide, by decide, by decide⟩

/-- C6 (code bug): on `bufEndFirst` the option stream begins with the End
sentinel (byte 240 is 255) followed by one more encoded option `[1, 1, 6]`;
`Frame::parse` succeeds, but its option list contains an option byte-identical
to the one located after the End sentinel — the loop never looks at the
stream, echoing buffer index 0 until the cursor passes the end. -/
theorem frameParse_ignores_end_sentinel :
    frameParse bufEndFirst = .ok frameEcho3 ∧
    bufEndFirst.getD 240 0 = 255 ∧
    bufEndFirst.drop 241 = optionToBytes headerEchoOpt ∧
    headerEchoOpt ∈ frameEcho3.options := by
  refine ⟨by decide, by decide, by decide, by decide⟩

/-- C4 (code bug): `bufHtype255` is a well-formed 240-byte buffer (fixed
header, magic cookie, empty option stream), yet `Frame::parse` fails: the
option loop parses the whole buffer from index 0 and reads `htype` = 255 as a
declared option length exceeding the remaining buffer. -/
theorem frameParse_rejects_wellformed :
    wellFormedBuf bufHtype255 ∧
    frameParse bufHtype255 = .error (.optFail .fillFail) := by
  refine ⟨⟨by decide, by decide, Or.inr ⟨by decide, ?_⟩⟩, by decide⟩
  have h : bufHtype255.drop 240 = [] := by decide
  rw [h]
  exact ValidOptStream.nil

lemma optLoop_error_malformed (buf : List Nat) :
    ∀ (fuel pos : Nat) (acc : List DhcpOption) (e : PErr),
      buf.length ≤ fuel + pos →
      optLoop buf fuel pos acc = .error e → e.malformed := by
  intro fuel
  induction fuel with
  | zero =>
    intro pos acc e hle h
    simp only [optLoop] at h
    rw [if_neg (by omega)] at h
    exact Except.noConfusion h
  | succ n ih =>
    intro pos acc e hle h
    simp only [optLoop] at h
    by_cases hp : pos < buf.length
    · rw [if_pos hp] at h
      split at h
      next e2 heq =>
        injection h with h2
        subst h2
        have := optionParse_error_cases buf e2 heq
        rcases this with rfl | rfl <;> trivial
      next opt heq =>
        split at h
        · exact Except.noConfusion h
        · simp only [List.getLast?_concat] at h
          exact ih (pos + 2 + opt.data.length) (acc ++ [opt]) e (by omega) h
    · rw [if_neg hp] at h
      exact Except.noConfusion h

/-- C3: `Frame::parse` is total and panic-free: every returned error is a
malformed-input error — never the marker for the `opts.last().unwrap()` panic
(the pushed option makes the list non-empty) nor the marker for loop
non-termination (the cursor strictly advances each iteration) — and every
buffer shorter than 236 bytes produces a malformed-input error. -/
theorem frameParse_never_panics (buf : List Nat) :
    (∀ e : PErr, frameParse buf = .error e → e.malformed) ∧
    (buf.length < 236 → ∃ e, frameParse buf = .error e ∧ e.malformed) := by
  have hmain : ∀ e : PErr, frameParse buf = .error e → e.malformed := by
    intro e h
    simp only [frameParse] at h
    split at h
    · injection h with h2
      subst h2
      trivial
    · split at h
      · injection h with h2
        subst h2
        trivial
      · split at h
        · injection h with h2
          subst h2
          trivial
        · split at h
          next e2 heq =>
            injection h with h2
            subst h2
            exact optLoop_error_malformed buf buf.length 236 [] e2 (by omega) heq
          next opts heq => exact Except.noConfusion h
  refine ⟨hmain, fun hlt => ?_⟩
  by_cases h44 : buf.length < 44
  · refine ⟨.tooShort, ?_, trivial⟩
    simp only [frameParse]
    rw [if_pos h44]
  · by_cases h108 : buf.length < 108
    · refine ⟨.fillFail, ?_, trivial⟩
      simp only [frameParse]
      rw [if_neg h44, if_pos h108]
    · refine ⟨.fillFail, ?_, trivial⟩
      simp only [frameParse]
      rw [if_neg h44, if_neg h108, if_pos (by omega)]

/-- C3 witness: the empty buffer is shorter than 236 bytes and indeed yields
the malformed-input "Frame too short" error. -/
theorem frameParse_never_panics_witness :
    PErr.malformed .tooShort ∧ (∃ e, frameParse [] = .error e ∧ e.malformed) :=
  ⟨(frameParse_never_panics []).1 .tooShort (by decide),
   (frameParse_never_panics []).2 (by decide)⟩

lemma fromBE_u16 (v : Nat) (h : v < 65536) : fromBE (u16BE v) = v := by
  simp only [fromBE, u16BE, List.foldl]
  omega

lemma fromBE_u32 (v : Nat) (h : v < 4294967296) : fromBE (u32BE v) = v := by
  simp only [fromBE, u32BE, List.foldl]
  omega

lemma drop_start (L C R : List Nat) (k : Nat) (h : L = C ++ R)
    (hC : C.length = k) : L.take k = C ∧ L.drop k = R := by
  subst h
  exact ⟨List.take_left' hC, List.drop_left' hC⟩

lemma drop_step (L C R : List Nat) (n k m : Nat) (h : L.drop n = C ++ R)
    (hC : C.length = k) (hm : m = n + k) :
    (L.drop n).take k = C ∧ L.drop m = R := by
  subst hm
  refine ⟨by rw [h]; exact List.take_left' hC, ?_⟩
  calc L.drop (n + k) = (L.drop n).drop k := (List.drop_drop k n L).symm
    _ = (C ++ R).drop k := by rw [h]
    _ = R := List.drop_left' hC

/-- C7: `Frame::to_bytes` lays out the fixed fields at their documented
offsets with `xid`/`secs`/`flags` big-endian in a 236-byte prefix, then the
magic cookie `0x63 0x82 0x53 0x63` at offset 236, then exactly the options'
`tag, len, data` encodings in list order — in particular no End option is
appended that is not already in the list (with no options the output is
exactly 240 bytes). -/
theorem frameToBytes_layout (f : Frame)
    (hci : f.ciaddr.length = 4) (hyi : f.yiaddr.length = 4)
    (hsi : f.siaddr.length = 4) (hgi : f.giaddr.length = 4)
    (hch : f.chaddr.length = 16) (hsn : f.sname.length = 64)
    (hfi : f.file.length = 128) (hx : f.xid < 4294967296)
    (hs : f.secs < 65536) (hfl : f.flags < 65536) :
    (frameToBytes f).take 4 = [f.op, f.htype, f.hlen, f.hops] ∧
    fromBE (((frameToBytes f).drop 4).take 4) = f.xid ∧
    fromBE (((frameToBytes f).drop 8).take 2) = f.secs ∧
    fromBE (((frameToBytes f).drop 10).take 2) = f.flags ∧
    ((frameToBytes f).drop 12).take 4 = f.ciaddr ∧
    ((frameToBytes f).drop 16).take 4 = f.yiaddr ∧
    ((frameToBytes f).drop 20).take 4 = f.siaddr ∧
    ((frameToBytes f).drop 24).take 4 = f.giaddr ∧
    ((frameToBytes f).drop 28).take 16 = f.chaddr ∧
    ((frameToBytes f).drop 44).take 64 = f.sname ∧
    ((frameToBytes f).drop 108).take 128 = f.file ∧
    ((frameToBytes f).drop 236).take 4 = [99, 130, 83, 99] ∧
    (frameToBytes f).drop 240 = (f.options.map optionToBytes).flatten ∧
    (frameToBytes f).length =
      240 + ((f.options.map optionToBytes).flatten).length ∧
    (f.options = [] → (frameToBytes f).length = 240) := by
  have h0 : frameToBytes f =
      [f.op, f.htype, f.hlen, f.hops] ++ (u32BE f.xid ++ (u16BE f.secs ++
      (u16BE f.flags ++ (f.ciaddr ++ (f.yiaddr ++ (f.siaddr ++ (f.giaddr ++
      (f.chaddr ++ (f.sname ++ (f.file ++ ([99, 130, 83, 99] ++
      (f.options.map optionToBytes).flatten))))))))))) := by
    simp only [frameToBytes, List.append_assoc]
  have s0 := drop_start _ _ _ 4 h0 rfl
  have s4 := drop_step _ _ _ 4 4 8 s0.2 rfl (by omega)
  have s8 := drop_step _ _ _ 8 2 10 s4.2 rfl (by omega)
  have s10 := drop_step _ _ _ 10 2 12 s8.2 rfl (by omega)
  have s12 := drop_step _ _ _ 12 4 16 s10.2 hci (by omega)
  have s16 := drop_step _ _ _ 16 4 20 s12.2 hyi (by omega)
  have s20 := drop_step _ _ _ 20 4 24 s16.2 hsi (by omega)
  have s24 := drop_step _ _ _ 24 4 28 s20.2 hgi (by omega)
  have s28 := drop_step _ _ _ 28 16 44 s24.2 hch (by omega)
  have s44 := drop_step _ _ _ 44 64 108 s28.2 hsn (by omega)
  have s108 := drop_step _ _ _ 108 128 236 s44.2 hfi (by omega)
  have s236 := drop_step _ _ _ 236 4 240 s108.2 rfl (by omega)
  have hlen : (frameToBytes f).length =
      240 + ((f.options.map optionToBytes).flatten).length := by
    rw [h0]
    simp only [List.length_append, List.length_cons, List.length_nil,
      u32BE, u16BE, hci, hyi, hsi, hgi, hch, hsn, hfi]
    omega
  refine ⟨s0.1, ?_, ?_, ?_, s12.1, s16.1, s20.1, s24.1, s28.1, s44.1,
          s108.1, s236.1, s236.2, hlen, ?_⟩
  · rw [s4.1]
    exact fromBE_u32 f.xid hx
  · rw [s8.1]
    exact fromBE_u16 f.secs hs
  · rw [s10.1]
    exact fromBE_u16 f.flags hfl
  · intro ho
    rw [hlen, ho]
    simp

/-- C7 witness: the layout theorem applied to `Frame::new(1, 0)` — the first
four output bytes are `op, htype, hlen, hops` = `1, 1, 6, 0`. -/
theorem frameToBytes_layout_witness :
    (frameToBytes (frameNew 1 0)).take 4 = [1, 1, 6, 0] :=
  (frameToBytes_layout (frameNew 1 0) rfl rfl rfl rfl rfl rfl rfl
    (by decide) (by decide) (by decide)).1

/-- C9: `client_mac_string` formats the first 6 bytes of `chaddr` as
colon-separated lowercase two-digit hex pairs. -/
theorem clientMacString_spec (f : Frame) (h : 6 ≤ f.chaddr.length) :
    clientMacString f =
      String.intercalate ":" ((f.chaddr.take 6).map hexByte) := by
  rcases hc : f.chaddr with _ | ⟨a, _ | ⟨b, _ | ⟨c, _ | ⟨d, _ | ⟨e, _ | ⟨g, t⟩⟩⟩⟩⟩⟩
  · rw [hc] at h; simp at h
  · rw [hc] at h; simp at h
  · rw [hc] at h; simp at h
  · rw [hc] at h; simp at h
  · rw [hc] at h; simp at h
  · rw [hc] at h; simp at h
  · simp only [clientMacString, hc, List.getD_cons_zero, List.getD_cons_succ,
      List.take_succ_cons, List.take_zero, List.map_cons, List.map_nil,
      String.intercalate, String.intercalate.go]

/-- C9 witness: on a frame whose `chaddr` begins `52 54 01 12 34 56` the
formatter returns `"52:54:01:12:34:56"`. -/
theorem clientMacString_spec_witness :
    clientMacString frameMacEx =
      String.intercalate ":" ((frameMacEx.chaddr.take 6).map hexByte) ∧
    clientMacString frameMacEx = "52:54:01:12:34:56" := by
  refine ⟨clientMacString_spec frameMacEx (by decide), ?_⟩
  decide

end Dhcp
